import Mathlib

/-!
Verification development for the immigration ETL pipeline (`etl.py`).

The pipeline is shallowly embedded: Spark dataframes become lists of rows,
a row is an association list from column names to SQL cells (null, integer,
or string), and each pipeline function of the source is translated into an
executable Lean function over this model.  Fallible steps (Python exceptions
raised inside `code_mapper`, the date-conversion UDF, and the driver) are
modelled with `Except String`.
-/

set_option maxRecDepth 4000

/-- A SQL cell: null, an integer, or a string.  Raw numeric columns of the
source data are integer-valued doubles; they are modelled as integers. -/
inductive Cell where
  | null : Cell
  | int : Int → Cell
  | str : String → Cell
deriving DecidableEq, Repr

instance {ε α : Type} [DecidableEq ε] [DecidableEq α] : DecidableEq (Except ε α) := fun a b =>
  match a, b with
  | .ok a, .ok b =>
    if h : a = b then .isTrue (by rw [h]) else .isFalse (by intro hc; cases hc; exact h rfl)
  | .error a, .error b =>
    if h : a = b then .isTrue (by rw [h]) else .isFalse (by intro hc; cases hc; exact h rfl)
  | .ok _, .error _ => .isFalse (by intro hc; cases hc)
  | .error _, .ok _ => .isFalse (by intro hc; cases hc)

/-- A dataframe row: an association list from column names to cells. -/
abbrev Row := List (String × Cell)

/-- A dataframe: a list of rows. -/
abbrev DF := List Row

/-- Reading a column of a row (a missing column reads as null). -/
def getCol (r : Row) (c : String) : Cell :=
  match r with
  | [] => Cell.null
  | p :: ps => if p.1 = c then p.2 else getCol ps c

/-- Column-presence test for a row. -/
def hasCol (r : Row) (c : String) : Bool :=
  match r with
  | [] => false
  | p :: ps => if p.1 = c then true else hasCol ps c

/-- Spark `withColumn`: replace every entry of an existing column, or append
the column at the end of the row when it is not present yet. -/
def setCol (r : Row) (c : String) (v : Cell) : Row :=
  if hasCol r c then
    r.map (fun p => if p.1 = c then (c, v) else p)
  else
    r ++ [(c, v)]

/-- Spark `drop`: remove the named columns from a row (missing names are
ignored, as in Spark). -/
def dropColsRow (cols : List String) (r : Row) : Row :=
  r.filter (fun p => !(decide (p.1 ∈ cols)))

/- ### Python string primitives, on lists of characters -/

/-- Python prefix test: `dropPrefixCh p s` returns the remainder of `s` after
the prefix `p`, when `p` is a prefix of `s`. -/
def dropPrefixCh : List Char → List Char → Option (List Char)
  | [], s => some s
  | _ :: _, [] => none
  | p :: ps, c :: cs => if p = c then dropPrefixCh ps cs else none

/-- First occurrence of a pattern: `findSplitCh pat s` returns the characters
before the first occurrence of `pat` in `s` and the characters after it. -/
def findSplitCh (pat : List Char) : List Char → Option (List Char × List Char)
  | [] =>
    match pat with
    | [] => none
    | _ :: _ => none
  | c :: cs =>
    match dropPrefixCh pat (c :: cs) with
    | some rest => some ([], rest)
    | none =>
      match findSplitCh pat cs with
      | some (b, a) => some (c :: b, a)
      | none => none

/-- Python `str.split(sep)` (fuel-driven; the fuel `s.length + 1` is enough
for every non-empty separator, and the Python source only splits on the
non-empty separators `"\n"` and `"="`). -/
def pySplitGo (pat : List Char) : Nat → List Char → List (List Char)
  | 0, s => [s]
  | fuel + 1, s =>
    match findSplitCh pat s with
    | none => [s]
    | some (b, a) => b :: pySplitGo pat fuel a

/-- Python `str.split(sep)` for a non-empty separator. -/
def pySplit (pat : List Char) (s : List Char) : List (List Char) :=
  pySplitGo pat (s.length + 1) s

/-- Python whitespace (the characters stripped by `str.strip()`). -/
def isPyWs (c : Char) : Bool :=
  c = ' ' || c = '\t' || c = '\n' || c = '\r' || c = '\x0b' || c = '\x0c'

/-- Python `str.strip()`. -/
def pyStrip (s : List Char) : List Char :=
  ((s.dropWhile isPyWs).reverse.dropWhile isPyWs).reverse

/-- Python `f_content[f_content.index(idx):]`: the suffix of `content`
starting at the first occurrence of `idx` (including `idx` itself), or `none`
when `idx` does not occur (Python raises `ValueError` there).  Python finds
the empty string at index 0. -/
def firstOccurrenceSuffix (content idx : String) : Option String :=
  if idx = "" then some content
  else
    match findSplitCh idx.toList content.toList with
    | none => none
    | some (_, after) => some (String.mk (idx.toList ++ after))

/-- Substring test used to state marker presence, directly in terms of the
embedded occurrence search. -/
def hasSub (s pat : String) : Bool :=
  (firstOccurrenceSuffix s pat).isSome

/-- The body of `code_mapper` once the marker has been found: cut the
suffix `s1` at the next semicolon (a missing semicolon is a Python
`ValueError`), split into lines, delete single-quote characters, and turn
every line after the header line whose `split('=')` has exactly two parts
into a stripped (code, label) pair. -/
def code_mapper_block (s1 : String) : Except String (List (String × String)) :=
  match findSplitCh [';'] s1.toList with
  | none => .error "ValueError: substring not found"
  | some (block, _) =>
    let lines := pySplit ['\n'] block
    let lines := lines.map (fun l => l.filter (fun c => !(c = '\'')))
    let pairs := (lines.drop 1).map (fun l => pySplit ['='] l)
    .ok (pairs.filterMap (fun ps =>
      match ps with
      | [a, b] => some (String.mk (pyStrip a), String.mk (pyStrip b))
      | _ => none))

/-- The decoder of `etl.py`'s `code_mapper(file, idx)`: take the suffix of
the (tab-stripped) label text from the first occurrence of the marker `idx`
(a missing marker is a Python `ValueError`, modelled as `Except.error`) and
parse the label block that follows. -/
def code_mapper (content idx : String) : Except String (List (String × String)) :=
  match firstOccurrenceSuffix content idx with
  | none => .error "ValueError: substring not found"
  | some s1 => code_mapper_block s1

/- ### SAS epoch-day conversion (`get_date` UDF) -/

/-- Civil calendar date from a count of days since 1970-01-01 (proleptic
Gregorian; the classic days-to-civil algorithm). -/
def civilFromDays (z : Int) : Int × Int × Int :=
  let z := z + 719468
  let era := z.fdiv 146097
  let doe := z - era * 146097
  let yoe := (doe - doe / 1460 + doe / 36524 - doe / 146096) / 365
  let y := yoe + era * 400
  let doy := doe - (365 * yoe + yoe / 4 - yoe / 100)
  let mp := (5 * doy + 2) / 153
  let d := doy - (153 * mp + 2) / 5 + 1
  let m := mp + (if mp < 10 then 3 else -9)
  (y + (if m ≤ 2 then 1 else 0), m, d)

/-- Zero-padding to two digits, as in `date.isoformat()`. -/
def pad2 (n : Int) : String :=
  if n < 10 then "0" ++ toString n else toString n

/-- Zero-padding of the year to four digits, as in `date.isoformat()`. -/
def pad4 (n : Int) : String :=
  if n < 10 then "000" ++ toString n
  else if n < 100 then "00" ++ toString n
  else if n < 1000 then "0" ++ toString n
  else toString n

/-- `date.isoformat()` of a (year, month, day) triple. -/
def isoFormat (c : Int × Int × Int) : String :=
  pad4 c.1 ++ "-" ++ pad2 c.2.1 ++ "-" ++ pad2 c.2.2

/-- Days from 1960-01-01 (the SAS epoch) to 1970-01-01. -/
def sasEpochShift : Int := 3653

/-- The date-conversion UDF
`lambda x: (dt.datetime(1960, 1, 1).date() + dt.timedelta(x)).isoformat() if x else None`.
Python truthiness makes `None`, `0` and `""` all fall to the `None` branch;
a truthy number is converted to `1960-01-01 + x` days (Python raises
`OverflowError` outside years 1..9999), and a truthy string raises a
`TypeError` inside `timedelta`. -/
def get_date (x : Cell) : Except String Cell :=
  match x with
  | Cell.null => .ok Cell.null
  | Cell.int n =>
    if n = 0 then .ok Cell.null
    else
      let c := civilFromDays (n - sasEpochShift)
      if c.1 < 1 || c.1 > 9999 then .error "OverflowError: date value out of range"
      else .ok (Cell.str (isoFormat c))
  | Cell.str s =>
    if s = "" then .ok Cell.null
    else .error "TypeError: unsupported type for timedelta days component: str"

/- ### Record Normalizer (`clean_immigration_data`, `clean_temperature_data`) -/

/-- Error-propagating map over the rows of a dataframe (a Spark UDF raising
an exception fails the whole job). -/
def mapMExcept (f : Row → Except String Row) : DF → Except String DF
  | [] => .ok []
  | r :: rs =>
    match f r with
    | .error e => .error e
    | .ok r' =>
      match mapMExcept f rs with
      | .error e => .error e
      | .ok rs' => .ok (r' :: rs')

/-- The two `withColumn` calls applying the `get_date` UDF to `arrdate` and
`depdate` of one row. -/
def dateConvertRow (r : Row) : Except String Row :=
  match get_date (getCol r "arrdate") with
  | .error e => .error e
  | .ok a =>
    match get_date (getCol r "depdate") with
    | .error e => .error e
    | .ok d => .ok (setCol (setCol r "arrdate" a) "depdate" d)

/-- Spark `dropDuplicates`: keep the first row for each distinct key (the
source keeps an arbitrary row per key; first-kept is the deterministic
refinement used by this embedding). -/
def dedupAux {β : Type} [DecidableEq β] (key : Row → β) (seen : List β) : DF → DF
  | [] => []
  | r :: rs =>
    if key r ∈ seen then dedupAux key seen rs
    else r :: dedupAux key (key r :: seen) rs

/-- Spark `dropDuplicates` keyed by `key`. -/
def dedupByKey {β : Type} [DecidableEq β] (key : Row → β) (df : DF) : DF :=
  dedupAux key [] df

/-- Spark `dropna(how='all', subset=cols)` keep-condition: true when every
column of `cols` is null in the row. -/
def allNullB (cols : List String) (r : Row) : Bool :=
  cols.all (fun c => decide (getCol r c = Cell.null))

/-- Columns dropped unconditionally by the cleaning step. -/
def dropColumns : List String := ["occup", "entdepu", "insnum"]

/-- `clean_immigration_data`: convert the SAS date columns with the
`get_date` UDF, drop the three incomplete columns, deduplicate by `cicid`,
and drop rows whose `cicid` is null (`dropna(how='all', subset=['cicid'])`
with a single-column subset keeps exactly the rows with non-null `cicid`). -/
def clean_immigration_data (df : DF) : Except String DF :=
  match mapMExcept dateConvertRow df with
  | .error e => .error e
  | .ok df1 =>
    let df2 := df1.map (fun r => dropColsRow dropColumns r)
    let df3 := dedupByKey (fun r => getCol r "cicid") df2
    .ok (df3.filter (fun r => !(allNullB ["cicid"] r)))

/-- Spark `dropna(subset=cols)` (default `how='any'`) keep-condition: true
when no column of `cols` is null. -/
def noneNullB (cols : List String) (r : Row) : Bool :=
  cols.all (fun c => !(decide (getCol r c = Cell.null)))

/-- `clean_temperature_data`: drop exact-duplicate rows, then rows with a
null `AverageTemperature`. -/
def clean_temperature_data (df : DF) : DF :=
  (dedupByKey (fun r => r) df).filter (fun r => noneNullB ["AverageTemperature"] r)

/- ### Code Enrichment (`fetch_sas_key_values`) -/

/-- Python `dict` lookup for a dict built from an association list: on
duplicate keys the last binding wins. -/
def lookupLast (k : String) (m : List (String × String)) : Option String :=
  List.lookup k m.reverse

/-- Spark `cast("int")` on a cell: integers unchanged, numeric strings
parsed, anything unparseable (and null) becomes null. -/
def castIntCell (c : Cell) : Cell :=
  match c with
  | Cell.null => Cell.null
  | Cell.int i => Cell.int i
  | Cell.str s =>
    match s.toInt? with
    | some i => Cell.int i
    | none => Cell.null

/-- Spark `create_map(...).getItem(col)`: look the cell up among the string
keys of the mapping (an integer key is compared through its decimal string,
mirroring Spark's coercion of the lookup key to the map's key type); a miss
or a null key yields null. -/
def mapLookup (m : List (String × String)) (c : Cell) : Cell :=
  match c with
  | Cell.null => Cell.null
  | Cell.int i =>
    match lookupLast (toString i) m with
    | some v => Cell.str v
    | none => Cell.null
  | Cell.str s =>
    match lookupLast s m with
    | some v => Cell.str v
    | none => Cell.null

/-- The fixed visa-category table of the source. -/
def i94visaTable : List (String × String) :=
  [("1", "Business"), ("2", "Pleasure"), ("3", "Student")]

/-- The per-row enrichment of `fetch_sas_key_values`: cast the eight numeric
code columns to integers (each cast reads the original row, as the chained
`withColumn` calls do), then add the five descriptive value columns from the
decoded mappings.  The value lookups read the cast columns (`col("i94cit")`
etc. resolve against the already-cast dataframe). -/
def enrichRow (cit mode addr visa : List (String × String)) (r : Row) : Row :=
  let r8 := setCol (setCol (setCol (setCol (setCol (setCol (setCol (setCol r
    "cicid" (castIntCell (getCol r "cicid")))
    "i94yr" (castIntCell (getCol r "i94yr")))
    "i94mon" (castIntCell (getCol r "i94mon")))
    "i94cit" (castIntCell (getCol r "i94cit")))
    "i94res" (castIntCell (getCol r "i94res")))
    "i94mode" (castIntCell (getCol r "i94mode")))
    "i94bir" (castIntCell (getCol r "i94bir")))
    "i94visa" (castIntCell (getCol r "i94visa"))
  setCol (setCol (setCol (setCol (setCol r8
    "i94cit_value" (mapLookup cit (getCol r8 "i94cit")))
    "i94res_value" (mapLookup cit (getCol r8 "i94res")))
    "i94mode_value" (mapLookup mode (getCol r8 "i94mode")))
    "i94addr_value" (mapLookup addr (getCol r8 "i94addr")))
    "i94visa_value" (mapLookup visa (getCol r8 "i94visa"))

/-- The tab-stripping `f_content.replace('\t', '')` applied to the label
text before decoding. -/
def stripTabs (s : String) : String :=
  String.mk (s.toList.filter (fun c => !(c = '\t')))

/-- `fetch_sas_key_values`: strip tabs from the label text, decode the
three reference-file domains with `code_mapper` (a missing marker raises),
take the literal visa table, and enrich every immigration row. -/
def fetch_sas_key_values (labelsContent : String) (df : DF) : Except String DF :=
  match code_mapper (stripTabs labelsContent) "i94cntyl" with
  | .error e => .error e
  | .ok i94cit_res =>
    match code_mapper (stripTabs labelsContent) "i94model" with
    | .error e => .error e
    | .ok i94mode =>
      match code_mapper (stripTabs labelsContent) "i94addrl" with
      | .error e => .error e
      | .ok i94addr =>
        .ok (df.map (enrichRow i94cit_res i94mode i94addr i94visaTable))

/- ### SQL cell operations used by `process_tables` -/

/-- SQL equality in a join condition: null never matches. -/
def sqlEq (a b : Cell) : Bool :=
  match a, b with
  | Cell.null, _ => false
  | _, Cell.null => false
  | a, b => decide (a = b)

/-- Lower-casing of a string, character by character. -/
def lowerStr (s : String) : String :=
  String.mk (s.toList.map Char.toLower)

/-- SQL `lower()`: lower-case a string cell (a non-string argument is cast
to its string form first, as Spark does); null stays null. -/
def sqlLower (c : Cell) : Cell :=
  match c with
  | Cell.null => Cell.null
  | Cell.str s => Cell.str (lowerStr s)
  | Cell.int i => Cell.str (toString i)

/-- SQL `right(s, n)`: the last `n` characters of a string cell; null stays
null (an integer is cast to its string form first). -/
def rightStr (s : String) (n : Nat) : String :=
  String.mk (s.toList.reverse.take n).reverse

/-- SQL `right` on a cell. -/
def sqlRight (c : Cell) (n : Nat) : Cell :=
  match c with
  | Cell.null => Cell.null
  | Cell.str s => Cell.str (rightStr s n)
  | Cell.int i => Cell.str (rightStr (toString i) n)

/-- Ordering on cells used by SQL `min`/`max` aggregates and `ORDER BY`
(nulls sort first, as in Spark ascending order). -/
def cellLe (a b : Cell) : Bool :=
  match a, b with
  | Cell.null, _ => true
  | _, Cell.null => false
  | Cell.int i, Cell.int j => decide (i ≤ j)
  | Cell.str s, Cell.str t => decide (s ≤ t)
  | Cell.int _, Cell.str _ => true
  | Cell.str _, Cell.int _ => false

/-- SQL `min` aggregate: the least non-null cell, or null when there is
none. -/
def sqlMin (cs : List Cell) : Cell :=
  cs.foldl (fun acc c =>
    match acc, c with
    | acc, Cell.null => acc
    | Cell.null, c => c
    | a, c => if cellLe c a then c else a) Cell.null

/-- SQL `max` aggregate: the greatest non-null cell, or null when there is
none. -/
def sqlMax (cs : List Cell) : Cell :=
  cs.foldl (fun acc c =>
    match acc, c with
    | acc, Cell.null => acc
    | Cell.null, c => c
    | a, c => if cellLe a c then c else a) Cell.null

/-- SQL `sum` aggregate over integer cells: nulls are ignored; an empty or
all-null group sums to null. -/
def sqlSum (cs : List Cell) : Cell :=
  cs.foldl (fun acc c =>
    match acc, c with
    | acc, Cell.null => acc
    | Cell.null, Cell.int i => Cell.int i
    | Cell.int a, Cell.int i => Cell.int (a + i)
    | acc, _ => acc) Cell.null

/-- SQL `cast(x as string)`. -/
def castStrCell (c : Cell) : Cell :=
  match c with
  | Cell.null => Cell.null
  | Cell.int i => Cell.str (toString i)
  | Cell.str s => Cell.str s

/-- SQL `concat`: null when any argument is null. -/
def sqlConcat (cs : List Cell) : Cell :=
  match cs.mapM (fun c => match c with | Cell.str s => some s | _ => (none : Option String)) with
  | some ss => Cell.str (String.join ss)
  | none => Cell.null

/- ### `us_airport_dim` -/

/-- The `CASE WHEN` chain expanding a continent code to its full name;
with no `ELSE` branch an unmatched code yields null. -/
def continentCase (c : Cell) : Cell :=
  if c = Cell.str "NA" then Cell.str "North America"
  else if c = Cell.str "AF" then Cell.str "Africa"
  else if c = Cell.str "AN" then Cell.str "Antarctica"
  else if c = Cell.str "AS" then Cell.str "Asia"
  else if c = Cell.str "EU" then Cell.str "Europe"
  else if c = Cell.str "OC" then Cell.str "Oceania"
  else if c = Cell.str "SA" then Cell.str "South America"
  else Cell.null

/-- The projection of one airport record in the `us_airport_dim` query,
without the surrogate key. -/
def airportProj (a : Row) : Row :=
  [("airport_code", getCol a "iata_code"),
   ("airport_type", getCol a "type"),
   ("airport_name", getCol a "name"),
   ("continent_code", getCol a "continent"),
   ("continent_name", continentCase (getCol a "continent")),
   ("country_code", getCol a "iso_country"),
   ("state_code", sqlRight (getCol a "iso_region") 2),
   ("municipality", getCol a "municipality")]

/-- One output row of `us_airport_dim` with its `row_number()` surrogate
key. -/
def mkAirportRow (n : Int) (a : Row) : Row :=
  ("airport_id", Cell.int n) :: airportProj a

/-- The rows of `us_airport_dim`, numbering from `n`.  The query's
`row_number() over (order by "iata_code")` orders by a string literal, i.e.
by a constant, so the surrogate keys follow the input row order. -/
def airportRows (n : Int) : DF → DF
  | [] => []
  | a :: as_ => mkAirportRow n a :: airportRows (n + 1) as_

/-- The `us_airport_dim` query. -/
def us_airport_dim (df_airport_codes : DF) : DF :=
  airportRows 1 df_airport_codes

/- ### `calendar_dim` -/

/-- Days since 1970-01-01 of a civil (year, month, day) date (proleptic
Gregorian; the classic civil-to-days algorithm). -/
def daysFromCivil (y m d : Int) : Int :=
  let y := y - (if m ≤ 2 then 1 else 0)
  let era := y.fdiv 400
  let yoe := y - era * 400
  let mp := m + (if m > 2 then -3 else 9)
  let doy := (153 * mp + 2) / 5 + d - 1
  let doe := yoe * 365 + yoe / 4 - yoe / 100 + doy
  era * 146097 + doe - 719468

/-- Decimal digit of a character, if any. -/
def digitVal (c : Char) : Option Int :=
  if c.isDigit then some ((c.toNat : Int) - 48) else none

/-- Parse an ISO `YYYY-MM-DD` string into (year, month, day); Spark's cast
of an ill-formed string to a date yields null, modelled as `none`. -/
def parseIso (s : String) : Option (Int × Int × Int) :=
  match s.toList with
  | [y1, y2, y3, y4, '-', m1, m2, '-', d1, d2] =>
    match digitVal y1, digitVal y2, digitVal y3, digitVal y4,
        digitVal m1, digitVal m2, digitVal d1, digitVal d2 with
    | some a, some b, some c, some d, some e, some f, some g, some h =>
      let y := a * 1000 + b * 100 + c * 10 + d
      let m := e * 10 + f
      let dd := g * 10 + h
      if 1 ≤ m && m ≤ 12 && 1 ≤ dd && dd ≤ 31 then some (y, m, dd) else none
    | _, _, _, _, _, _, _, _ => none
  | _ => none

/-- ISO weekday of a days-since-1970 count (Monday = 1 .. Sunday = 7). -/
def isoWeekday (z : Int) : Int :=
  (z + 3).emod 7 + 1

/-- Number of ISO weeks in a year. -/
def isoWeeksInYear (y : Int) : Int :=
  let p := fun (y : Int) => (y + y.fdiv 4 - y.fdiv 100 + y.fdiv 400).emod 7
  if p y = 4 || p (y - 1) = 3 then 53 else 52

/-- Spark `weekofyear` (ISO 8601 week number) of a civil date. -/
def weekOfYear (y m d : Int) : Int :=
  let z := daysFromCivil y m d
  let doy := z - daysFromCivil y 1 1 + 1
  let w := (doy - isoWeekday z + 10).fdiv 7
  if w < 1 then isoWeeksInYear (y - 1)
  else if w > isoWeeksInYear y then 1
  else w

/-- Evaluate one of the calendar field functions on an arrival-date cell:
a string cell is parsed as a date, anything else yields null. -/
def dateField (f : Int → Int → Int → Int) (c : Cell) : Cell :=
  match c with
  | Cell.str s =>
    match parseIso s with
    | some (y, m, d) => Cell.int (f y m d)
    | none => Cell.null
  | _ => Cell.null

/-- One projected row of the `calendar_dim` query. -/
def calendarProj (r : Row) : Row :=
  let a := getCol r "arrdate"
  [("date", a),
   ("year", dateField (fun y _ _ => y) a),
   ("month", dateField (fun _ m _ => m) a),
   ("week", dateField weekOfYear a),
   ("day", dateField (fun y m d => daysFromCivil y m d - daysFromCivil y 1 1 + 1) a),
   ("weekday", dateField (fun y m d => (daysFromCivil y m d + 4).emod 7 + 1) a)]

/-- The `calendar_dim` query: project the calendar fields of every arrival
date and keep distinct rows. -/
def calendar_dim (df_immigration : DF) : DF :=
  dedupByKey (fun r => r) (df_immigration.map calendarProj)

/- ### `country_dim` -/

/-- One aggregated row of the `country_dim` query for a distinct country
row, with surrogate key `n`: the min/max `AverageTemperature` over the
temperature rows joined on country name. -/
def mkCountryRow (n : Int) (c : Row) (temps : DF) : Row :=
  let name := getCol c "Country"
  let ms := temps.filter (fun t => sqlEq name (getCol t "Country"))
  let vals := ms.map (fun t => getCol t "AverageTemperature")
  [("country_id", Cell.int n),
   ("country_name", name),
   ("country_avg_temp_min", sqlMin vals),
   ("country_avg_temp_max", sqlMax vals)]

/-- The aggregated rows of `country_dim`, numbering from `n` (the query's
`row_number()` orders by the string literal `"c.Country"`, a constant, so
keys follow the order of the distinct-country rows). -/
def countryRows (n : Int) (cs : DF) (temps : DF) : DF :=
  match cs with
  | [] => []
  | c :: rest => mkCountryRow n c temps :: countryRows (n + 1) rest temps

/-- The `country_dim` query: distinct country names of the temperature
data, left-joined back to the temperature rows and aggregated. -/
def country_dim (df_temperature : DF) : DF :=
  let countries := dedupByKey (fun r => r)
    (df_temperature.map (fun r => [("Country", getCol r "Country")]))
  countryRows 1 countries df_temperature

/- ### `us_demographics_dim` -/

/-- Stable insertion of a row into a sorted list (used for `ORDER BY`). -/
def insertRowBy (le : Row → Row → Bool) (r : Row) : DF → DF
  | [] => [r]
  | x :: xs => if le x r then x :: insertRowBy le r xs else r :: x :: xs

/-- Stable insertion sort of rows. -/
def sortRowsBy (le : Row → Row → Bool) (df : DF) : DF :=
  df.foldr (insertRowBy le) []

/-- One aggregated row of the `us_demographics_dim` query for the group of
`df` rows matching the (state code, state name) key row `k`. -/
def mkDemoRow (n : Int) (k : Row) (df : DF) : Row :=
  let sc := getCol k "State Code"
  let sn := getCol k "State"
  let g := df.filter (fun r =>
    decide (getCol r "State Code" = sc) && decide (getCol r "State" = sn))
  let ages := g.map (fun r => getCol r "Median Age")
  let sizes := g.map (fun r => getCol r "Average Household Size")
  [("state_id", Cell.int n),
   ("state_code", sc),
   ("state_name", sn),
   ("median_age_range", sqlConcat
      [castStrCell (sqlMin ages), Cell.str " - ", castStrCell (sqlMax ages)]),
   ("population", sqlSum (g.map (fun r => getCol r "Total Population"))),
   ("veteran_pop", sqlSum (g.map (fun r => getCol r "Number of Veterans"))),
   ("foreign_born_pop", sqlSum (g.map (fun r => getCol r "Foreign-born"))),
   ("avg_household_size_range", sqlConcat
      [castStrCell (sqlMin sizes), Cell.str " - ", castStrCell (sqlMax sizes)]),
   ("count", sqlSum (g.map (fun r => getCol r "Count")))]

/-- The aggregated rows of `us_demographics_dim`, numbering from `n`. -/
def demoRows (n : Int) (ks : DF) (df : DF) : DF :=
  match ks with
  | [] => []
  | k :: rest => mkDemoRow n k df :: demoRows (n + 1) rest df

/-- The `us_demographics_dim` query: group by (state code, state name),
aggregate, and assign `row_number() over (order by State Code)` surrogate
keys, i.e. number the groups in state-code order. -/
def us_demographics_dim (df_demographics : DF) : DF :=
  let keys := dedupByKey (fun r => r)
    (df_demographics.map (fun r =>
      [("State Code", getCol r "State Code"), ("State", getCol r "State")]))
  let sorted := sortRowsBy
    (fun a b => cellLe (getCol a "State Code") (getCol b "State Code")) keys
  demoRows 1 sorted df_demographics

/- ### `immigration_fact` -/

/-- The `birth` join condition of the fact query:
`lower(i.i94cit_value) = lower(birth.country_name)`. -/
def birthRowMatch (i b : Row) : Bool :=
  sqlEq (sqlLower (getCol i "i94cit_value")) (sqlLower (getCol b "country_name"))

/-- The `res` join condition of the fact query:
`lower(i.i94cit_value) = lower(res.country_name)` — the source compares the
same citizenship-derived column `i94cit_value` for this alias too. -/
def resRowMatch (i b : Row) : Bool :=
  sqlEq (sqlLower (getCol i "i94cit_value")) (sqlLower (getCol b "country_name"))

/-- The airport join condition: `i.i94port = p.airport_code`. -/
def portRowMatch (i p : Row) : Bool :=
  sqlEq (getCol i "i94port") (getCol p "airport_code")

/-- The demographics join condition: `i.i94addr = d.state_code`. -/
def addrRowMatch (i d : Row) : Bool :=
  sqlEq (getCol i "i94addr") (getCol d "state_code")

/-- Left-join match list: the matching right rows, or a single null row
(`none`) when there is no match. -/
def matchRows (df : DF) (p : Row → Bool) : List (Option Row) :=
  match df.filter p with
  | [] => [none]
  | ms => ms.map some

/-- Column access through an optional (null-padded) joined row. -/
def optCol (o : Option Row) (c : String) : Cell :=
  match o with
  | none => Cell.null
  | some r => getCol r c

/-- The select-list of the fact query, for one immigration row and its four
(possibly null-padded) joined dimension rows. -/
def mkFactRow (i : Row) (birth res p d : Option Row) : Row :=
  [("birth_country_id", optCol birth "country_id"),
   ("res_country_id", optCol res "country_id"),
   ("airport_id", optCol p "airport_id"),
   ("state_id", optCol d "state_id"),
   ("arrival_date", getCol i "arrdate"),
   ("departure_date", getCol i "depdate"),
   ("created_date", getCol i "dtadfile"),
   ("admission_date", getCol i "dtaddto"),
   ("visa_type_code", getCol i "i94visa"),
   ("visa_type_desc", getCol i "i94visa_value"),
   ("visa_post", getCol i "visapost"),
   ("arrival_mode_code", getCol i "i94mode"),
   ("arrival_mode_desc", getCol i "i94mode_value"),
   ("age", getCol i "i94bir"),
   ("arrival_flag", getCol i "entdepa"),
   ("departure_flag", getCol i "entdepd"),
   ("match_flag", getCol i "matflag"),
   ("birth_year", getCol i "biryear"),
   ("admission_num", getCol i "admnum"),
   ("flight_num", getCol i "fltno"),
   ("airline_code", getCol i "airline")]

/-- The fact rows produced for one immigration row: the sequence of four
left joins (each later join applies to every row produced so far; since
each join condition reads only the immigration row and its own dimension
row, this is the nested product of the per-dimension match lists). -/
def factRowsForRec (i : Row) (cd ad dd : DF) : DF :=
  (matchRows cd (fun b => birthRowMatch i b)).flatMap fun birth =>
    (matchRows cd (fun b => resRowMatch i b)).flatMap fun res =>
      (matchRows ad (fun p => portRowMatch i p)).flatMap fun pr =>
        (matchRows dd (fun d => addrRowMatch i d)).map fun dr =>
          mkFactRow i birth res pr dr

/-- The `immigration_fact` query before the surrogate-id column. -/
def immigration_fact (imm cd ad dd : DF) : DF :=
  imm.flatMap (fun i => factRowsForRec i cd ad dd)

/-- `monotonically_increasing_id()` starting from `n`: consecutive ids in
row order (the single-partition behaviour of the source call). -/
def recIdFrom (n : Int) : DF → DF
  | [] => []
  | r :: rs => setCol r "record_id" (Cell.int n) :: recIdFrom (n + 1) rs

/-- The fact table as written: the fact query plus the `record_id`
column. -/
def immigration_fact_table (imm cd ad dd : DF) : DF :=
  recIdFrom 0 (immigration_fact imm cd ad dd)

/- ### `process_tables` and the driver -/

/-- `process_tables`: build the five output relations, in the order they
are written.  In the source each relation is then persisted by the output
sink; here the written relations are returned. -/
def process_tables (df_temperature df_airport_codes df_demographics df_immigration : DF) :
    List (String × DF) :=
  [("calendar_dim", calendar_dim df_immigration),
   ("us_demographics_dim", us_demographics_dim df_demographics),
   ("us_airport_dim", us_airport_dim df_airport_codes),
   ("country_dim", country_dim df_temperature),
   ("immigration_fact", immigration_fact_table df_immigration
      (country_dim df_temperature) (us_airport_dim df_airport_codes)
      (us_demographics_dim df_demographics))]

/-- The driver `main` after loading: enrich, clean, and build the output
relations.  Any error (in particular a missing reference-file marker)
aborts the run before any output relation is produced. -/
def run_pipeline (labelsContent : String)
    (df_immigration df_temperature df_demographics df_airport_codes : DF) :
    Except String (List (String × DF)) :=
  match fetch_sas_key_values labelsContent df_immigration with
  | .error e => .error e
  | .ok imm1 =>
    match clean_immigration_data imm1 with
    | .error e => .error e
    | .ok imm2 =>
      .ok (process_tables (clean_temperature_data df_temperature)
        df_airport_codes df_demographics imm2)

/- ### Lemmas about row access and update -/

theorem getCol_append (r s : Row) (c : String) :
    getCol (r ++ s) c = (if hasCol r c then getCol r c else getCol s c) := by
  induction r with
  | nil => simp [getCol, hasCol]
  | cons p ps ih =>
    by_cases h : p.1 = c
    · simp [getCol, hasCol, h]
    · simp [getCol, hasCol, h, ih]

theorem getCol_eq_null_of_not_hasCol (r : Row) (c : String) (h : hasCol r c = false) :
    getCol r c = Cell.null := by
  induction r with
  | nil => simp [getCol]
  | cons p ps ih =>
    simp [hasCol] at h
    by_cases hp : p.1 = c
    · exact absurd hp h.1
    · simp [getCol, hp]
      exact ih h.2

theorem getCol_map_update (r : Row) (c c' : String) (v : Cell) :
    getCol (r.map (fun p => if p.1 = c then (c, v) else p)) c' =
      (if c' = c ∧ hasCol r c then v else getCol r c') := by
  induction r with
  | nil => simp [getCol, hasCol]
  | cons p ps ih =>
    by_cases h : p.1 = c
    · by_cases h' : c' = c
      · subst h'
        simp [getCol, hasCol, h, if_pos rfl]
      · have hcc : ¬(c = c') := fun hc => h' hc.symm
        have hpc : ¬(p.1 = c') := by rw [h]; exact hcc
        simp [getCol, hasCol, h, hcc, hpc, ih, h']
    · by_cases h2 : p.1 = c'
      · subst h2
        have hcc : ¬(p.1 = c) := h
        simp [getCol, hasCol, h, hcc, ih]
      · simp [getCol, hasCol, h, h2, ih]

theorem getCol_setCol (r : Row) (c c' : String) (v : Cell) :
    getCol (setCol r c v) c' = if c' = c then v else getCol r c' := by
  unfold setCol
  by_cases hsome : hasCol r c
  · rw [if_pos hsome, getCol_map_update]
    by_cases h : c' = c
    · simp [h, hsome]
    · simp [h]
  · rw [if_neg hsome, getCol_append]
    by_cases h : c' = c
    · subst h
      simp [hsome, getCol, getCol_eq_null_of_not_hasCol r c' (Bool.eq_false_iff.mpr hsome)]
    · have hcs : ¬(c = c') := fun hc => h hc.symm
      by_cases hs : hasCol r c'
      · simp [hs, h]
      · simp [hs, h, getCol, hcs,
          getCol_eq_null_of_not_hasCol r c' (Bool.eq_false_iff.mpr hs)]

theorem getCol_setCol_self (r : Row) (c : String) (v : Cell) :
    getCol (setCol r c v) c = v := by
  simp [getCol_setCol]

theorem getCol_setCol_ne (r : Row) (c c' : String) (v : Cell) (h : c' ≠ c) :
    getCol (setCol r c v) c' = getCol r c' := by
  simp [getCol_setCol, h]

/- ### Claim C1: SAS epoch-day date conversion -/

/-- C1: the normalizer is claimed to convert arrival/departure SAS epoch-day
offsets to `1960-01-01 + offset` (offset 0 giving 1960-01-01) with null
mapped to null.  The code converts null and positive offsets as claimed
(offset 1 gives 1960-01-02, offset 21915 gives 2020-01-01), but its Python
truthiness test `if x` also sends offset 0 to the null branch, so offset 0
yields a null date instead of 1960-01-01 — the code contradicts the
documented SAS-date semantics at offset 0. -/
theorem c1_sas_date_conversion :
    get_date Cell.null = Except.ok Cell.null ∧
    get_date (Cell.int 1) = Except.ok (Cell.str "1960-01-02") ∧
    get_date (Cell.int 21915) = Except.ok (Cell.str "2020-01-01") ∧
    get_date (Cell.int 366) = Except.ok (Cell.str "1961-01-01") ∧
    get_date (Cell.int 0) = Except.ok Cell.null ∧
    Except.ok Cell.null ≠ (Except.ok (Cell.str "1960-01-01") : Except String Cell) := by
  refine ⟨by decide, by decide, by decide, by decide, by decide, by decide⟩

/- ### Claim C3: the reference-label decoder -/

/-- Decoder pipeline parameterized by the per-line parser: locate the
marker, cut at the next semicolon, split into lines, strip single-quote
characters, and parse every line after the header line, discarding lines
the parser rejects. -/
def decodeWith (parseLine : List Char → Option (String × String))
    (content idx : String) : Except String (List (String × String)) :=
  match firstOccurrenceSuffix content idx with
  | none => .error "ValueError: substring not found"
  | some s1 =>
    match findSplitCh [';'] s1.toList with
    | none => .error "ValueError: substring not found"
    | some (block, _) =>
      let lines := pySplit ['\n'] block
      let lines := lines.map (fun l => l.filter (fun c => !(c = '\'')))
      .ok ((lines.drop 1).filterMap parseLine)

/-- Modelled from the spec (claim C3 wording): a line is split on the FIRST
equals sign into a whitespace-trimmed pair; a line with no equals sign does
not split into two parts and is discarded. -/
def parseLineFirstEq (l : List Char) : Option (String × String) :=
  match findSplitCh ['='] l with
  | some (a, b) => some (String.mk (pyStrip a), String.mk (pyStrip b))
  | none => none

/-- The line treatment the code actually performs: `split('=')` on every
equals sign, keeping only lines whose split has exactly two parts. -/
def parseLineAllEq (l : List Char) : Option (String × String) :=
  match pySplit ['='] l with
  | [a, b] => some (String.mk (pyStrip a), String.mk (pyStrip b))
  | _ => none

/-- The decoder as the claim states it (split on the first equals sign). -/
def code_mapper_claim (content idx : String) : Except String (List (String × String)) :=
  decodeWith parseLineFirstEq content idx

/-- C3 counterexample: on the block `"marker\n'1'='A=B'\n;"` the claimed
algorithm (split on the first `=`) keeps the pair `("1", "A=B")`, but the
code splits on every `=`, gets three parts, and silently discards the line,
returning an empty mapping. -/
theorem c3_counterexample :
    code_mapper "marker\n'1'='A=B'\n;" "marker" = Except.ok [] ∧
    code_mapper_claim "marker\n'1'='A=B'\n;" "marker" =
      Except.ok [("1", "A=B")] := by
  refine ⟨by decide, by decide⟩

/-- C3 (amended): the decoder takes the substring from the marker's first
occurrence up to the next semicolon, strips quote characters, and splits
every line after the header on every `=`, keeping exactly the lines that
split into exactly two parts as trimmed (code, label) pairs; decoding
`"marker\n'1'='Foo'\n'2'='Bar'\n;"` returns `{"1": "Foo", "2": "Bar"}`. -/
theorem c3_decoder_amended :
    (∀ content idx, code_mapper content idx = decodeWith parseLineAllEq content idx) ∧
    code_mapper "marker\n'1'='Foo'\n'2'='Bar'\n;" "marker" =
      Except.ok [("1", "Foo"), ("2", "Bar")] := by
  refine ⟨?_, by decide⟩
  intro content idx
  unfold code_mapper decodeWith
  split
  · rfl
  · unfold code_mapper_block
    split
    · rfl
    · simp only [List.filterMap_map]
      rfl

/- ### Claim C6: enrichment value columns -/

/-- Label text used for the enrichment examples. -/
def c6labels : String :=
  "i94cntyl\n'101'='ALBANIA'\n;\ni94model\n'1'='Air'\n;\ni94addrl\n'NY'='NEW YORK'\n;"

/-- An immigration row used for the enrichment examples. -/
def c6row : Row :=
  [("cicid", Cell.int 1), ("i94cit", Cell.int 101), ("i94res", Cell.int 101),
   ("i94mode", Cell.int 1), ("i94addr", Cell.str "NY"), ("i94visa", Cell.int 2),
   ("i94yr", Cell.null), ("i94mon", Cell.null), ("i94bir", Cell.null)]

/-- The enriched row the pipeline produces for `c6row`. -/
def c6rowOut : Row :=
  [("cicid", Cell.int 1), ("i94cit", Cell.int 101), ("i94res", Cell.int 101),
   ("i94mode", Cell.int 1), ("i94addr", Cell.str "NY"), ("i94visa", Cell.int 2),
   ("i94yr", Cell.null), ("i94mon", Cell.null), ("i94bir", Cell.null),
   ("i94cit_value", Cell.str "ALBANIA"), ("i94res_value", Cell.str "ALBANIA"),
   ("i94mode_value", Cell.str "Air"), ("i94addr_value", Cell.str "NEW YORK"),
   ("i94visa_value", Cell.str "Pleasure")]

/-- C6 counterexample: the claim says no description column is added for the
addr state code (passthrough).  In fact `fetch_sas_key_values` adds a fifth
value column `i94addr_value`, populated from the `i94addrl` mapping: the
input row has no `i94addr_value` column, the enriched row has it with the
descriptive value `"NEW YORK"`. -/
theorem c6_counterexample :
    fetch_sas_key_values c6labels [c6row] = Except.ok [c6rowOut] ∧
    hasCol c6row "i94addr_value" = false ∧
    getCol c6rowOut "i94addr_value" = Cell.str "NEW YORK" := by
  refine ⟨by decide, by decide, by decide⟩

/-- C6 (amended): Code Enrichment adds a descriptive value column for five
coded domains — citizenship-country, residence-country, travel-mode, addr
state, and visa-category codes — each populated by looking the (cast) code
column up in the corresponding decoded mapping. -/
theorem c6_enrichment_five_value_columns
    (cit mode addr visa : List (String × String)) (r : Row) :
    getCol (enrichRow cit mode addr visa r) "i94cit_value" =
        mapLookup cit (castIntCell (getCol r "i94cit")) ∧
    getCol (enrichRow cit mode addr visa r) "i94res_value" =
        mapLookup cit (castIntCell (getCol r "i94res")) ∧
    getCol (enrichRow cit mode addr visa r) "i94mode_value" =
        mapLookup mode (castIntCell (getCol r "i94mode")) ∧
    getCol (enrichRow cit mode addr visa r) "i94addr_value" =
        mapLookup addr (getCol r "i94addr") ∧
    getCol (enrichRow cit mode addr visa r) "i94visa_value" =
        mapLookup visa (castIntCell (getCol r "i94visa")) := by
  refine ⟨?_, ?_, ?_, ?_, ?_⟩ <;> simp [enrichRow, getCol_setCol]

/- ### Lemmas about deduplication, error-mapping, and column dropping -/

theorem mem_of_mem_dedupAux {β : Type} [DecidableEq β] (key : Row → β)
    (seen : List β) (df : DF) (r : Row) (h : r ∈ dedupAux key seen df) : r ∈ df := by
  induction df generalizing seen with
  | nil => simp [dedupAux] at h
  | cons x xs ih =>
    unfold dedupAux at h
    by_cases hx : key x ∈ seen
    · rw [if_pos hx] at h
      exact List.mem_cons_of_mem x (ih seen h)
    · rw [if_neg hx] at h
      rcases List.mem_cons.mp h with h | h
      · exact h ▸ List.mem_cons_self x xs
      · exact List.mem_cons_of_mem x (ih _ h)

theorem dedupAux_key_reached {β : Type} [DecidableEq β] (key : Row → β)
    (seen : List β) (df : DF) (r : Row) (hr : r ∈ df) :
    key r ∈ seen ∨ ∃ r', r' ∈ dedupAux key seen df ∧ key r' = key r := by
  induction df generalizing seen with
  | nil => simp at hr
  | cons x xs ih =>
    unfold dedupAux
    rcases List.mem_cons.mp hr with hr | hr
    · subst hr
      by_cases hx : key r ∈ seen
      · exact Or.inl hx
      · rw [if_neg hx]
        exact Or.inr ⟨r, List.mem_cons_self _ _, rfl⟩
    · by_cases hx : key x ∈ seen
      · rw [if_pos hx]
        exact ih seen hr
      · rw [if_neg hx]
        rcases ih (key x :: seen) hr with h | ⟨r', hr', hk⟩
        · rcases List.mem_cons.mp h with h | h
          · exact Or.inr ⟨x, List.mem_cons_self _ _, h.symm⟩
          · exact Or.inl h
        · exact Or.inr ⟨r', List.mem_cons_of_mem x hr', hk⟩

theorem dedupAux_key_not_seen {β : Type} [DecidableEq β] (key : Row → β)
    (seen : List β) (df : DF) (r : Row) (h : r ∈ dedupAux key seen df) :
    key r ∉ seen := by
  induction df generalizing seen with
  | nil => simp [dedupAux] at h
  | cons x xs ih =>
    unfold dedupAux at h
    by_cases hx : key x ∈ seen
    · rw [if_pos hx] at h
      exact ih seen h
    · rw [if_neg hx] at h
      rcases List.mem_cons.mp h with h | h
      · exact h ▸ hx
      · intro hc
        exact ih (key x :: seen) h (List.mem_cons_of_mem _ hc)

theorem pairwise_dedupAux {β : Type} [DecidableEq β] (key : Row → β)
    (seen : List β) (df : DF) :
    List.Pairwise (fun a b => key a ≠ key b) (dedupAux key seen df) := by
  induction df generalizing seen with
  | nil => simp [dedupAux]
  | cons x xs ih =>
    unfold dedupAux
    by_cases hx : key x ∈ seen
    · rw [if_pos hx]
      exact ih seen
    · rw [if_neg hx]
      refine List.Pairwise.cons ?_ (ih _)
      intro b hb hkb
      exact dedupAux_key_not_seen key _ xs b hb (hkb ▸ List.mem_cons_self _ _)

theorem dedupAux_eq_self {β : Type} [DecidableEq β] (key : Row → β)
    (seen : List β) (l : DF)
    (hp : List.Pairwise (fun a b => key a ≠ key b) l)
    (hs : ∀ r ∈ l, key r ∉ seen) : dedupAux key seen l = l := by
  induction l generalizing seen with
  | nil => simp [dedupAux]
  | cons x xs ih =>
    unfold dedupAux
    rw [if_neg (hs x (List.mem_cons_self _ _))]
    congr 1
    refine ih (key x :: seen) (List.Pairwise.sublist (List.sublist_cons_self x xs) hp) ?_
    intro r hr hc
    rcases List.mem_cons.mp hc with hc | hc
    · exact (List.pairwise_cons.mp hp).1 r hr hc.symm
    · exact hs r (List.mem_cons_of_mem x hr) hc

theorem mapMExcept_ok_forward (f : Row → Except String Row) (df out : DF)
    (h : mapMExcept f df = .ok out) :
    ∀ r ∈ df, ∃ r', r' ∈ out ∧ f r = .ok r' := by
  induction df generalizing out with
  | nil => simp
  | cons x xs ih =>
    unfold mapMExcept at h
    cases hx : f x with
    | error e => rw [hx] at h; cases h
    | ok x' =>
      rw [hx] at h
      cases hxs : mapMExcept f xs with
      | error e => rw [hxs] at h; cases h
      | ok xs' =>
        rw [hxs] at h
        cases h
        intro r hr
        rcases List.mem_cons.mp hr with hr | hr
        · exact ⟨x', List.mem_cons_self _ _, hr ▸ hx⟩
        · rcases ih xs' hxs r hr with ⟨r', hr', hf⟩
          exact ⟨r', List.mem_cons_of_mem _ hr', hf⟩

theorem mapMExcept_ok_backward (f : Row → Except String Row) (df out : DF)
    (h : mapMExcept f df = .ok out) :
    ∀ r' ∈ out, ∃ r, r ∈ df ∧ f r = .ok r' := by
  induction df generalizing out with
  | nil =>
    unfold mapMExcept at h
    cases h
    simp
  | cons x xs ih =>
    unfold mapMExcept at h
    cases hx : f x with
    | error e => rw [hx] at h; cases h
    | ok x' =>
      rw [hx] at h
      cases hxs : mapMExcept f xs with
      | error e => rw [hxs] at h; cases h
      | ok xs' =>
        rw [hxs] at h
        cases h
        intro r' hr'
        rcases List.mem_cons.mp hr' with hr' | hr'
        · exact ⟨x, List.mem_cons_self _ _, hr' ▸ hx⟩
        · rcases ih xs' hxs r' hr' with ⟨r, hr, hf⟩
          exact ⟨r, List.mem_cons_of_mem _ hr, hf⟩

theorem mapMExcept_id (f : Row → Except String Row) (df : DF)
    (h : ∀ r ∈ df, f r = .ok r) : mapMExcept f df = .ok df := by
  induction df with
  | nil => rfl
  | cons x xs ih =>
    unfold mapMExcept
    rw [h x (List.mem_cons_self _ _), ih (fun r hr => h r (List.mem_cons_of_mem x hr))]

theorem getCol_dropColsRow (cols : List String) (r : Row) (c : String)
    (h : c ∉ cols) : getCol (dropColsRow cols r) c = getCol r c := by
  induction r with
  | nil => simp [dropColsRow, getCol]
  | cons p ps ih =>
    unfold dropColsRow at ih ⊢
    by_cases hp : p.1 ∈ cols
    · have hne : ¬(p.1 = c) := fun hc => h (hc ▸ hp)
      simp [List.filter, hp, getCol, hne, ih]
    · simp only [List.filter_cons, decide_eq_true_eq]
      simp [hp, getCol, ih]

theorem dateConvertRow_shape (r r' : Row) (h : dateConvertRow r = .ok r') :
    ∃ a d, r' = setCol (setCol r "arrdate" a) "depdate" d := by
  unfold dateConvertRow at h
  cases ha : get_date (getCol r "arrdate") with
  | error e => rw [ha] at h; cases h
  | ok a =>
    rw [ha] at h
    cases hd : get_date (getCol r "depdate") with
    | error e => rw [hd] at h; cases h
    | ok d =>
      rw [hd] at h
      cases h
      exact ⟨a, d, rfl⟩

/- ### Claim C2: the completeness filter -/

/-- A raw row whose `cicid` is null but whose `i94cit` is not. -/
def c2nullRow : Row :=
  [("cicid", Cell.null), ("i94cit", Cell.int 5), ("arrdate", Cell.null),
   ("depdate", Cell.null)]

/-- C2 counterexample: the claim says a row with at least one non-null
retained column is present in the cleaned relation.  `c2nullRow` retains a
non-null `i94cit` column, yet cleaning drops it, because the completeness
filter is `dropna(how='all', subset=['cicid'])` — its subset is only
`cicid`, so any row with a null `cicid` is discarded regardless of its
other columns. -/
theorem c2_counterexample :
    clean_immigration_data [c2nullRow] = Except.ok [] ∧
    getCol c2nullRow "i94cit" = Cell.int 5 ∧
    getCol c2nullRow "i94cit" ≠ Cell.null := by
  refine ⟨by decide, by decide, by decide⟩

/-- C2 (amended): a row of the raw immigration relation with a null `cicid`
is absent from the cleaned relation, and every row with a non-null `cicid`
is represented in it: some cleaned row carries the same `cicid` value
(cicid-deduplication keeps one row per key). -/
theorem c2_cicid_filter (df out : DF) (h : clean_immigration_data df = Except.ok out) :
    (∀ r ∈ out, getCol r "cicid" ≠ Cell.null) ∧
    (∀ r ∈ df, getCol r "cicid" ≠ Cell.null →
      ∃ r', r' ∈ out ∧ getCol r' "cicid" = getCol r "cicid") := by
  unfold clean_immigration_data at h
  cases hm : mapMExcept dateConvertRow df with
  | error e => rw [hm] at h; cases h
  | ok df1 =>
    rw [hm] at h
    cases h
    constructor
    · intro r hr
      have := (List.mem_filter.mp hr).2
      simp [allNullB] at this
      exact this
    · intro r hr hne
      rcases mapMExcept_ok_forward dateConvertRow df df1 hm r hr with ⟨r1, hr1, hf⟩
      rcases dateConvertRow_shape r r1 hf with ⟨a, d, hshape⟩
      have hc1 : getCol r1 "cicid" = getCol r "cicid" := by
        rw [hshape, getCol_setCol_ne _ _ _ _ (by decide),
          getCol_setCol_ne _ _ _ _ (by decide)]
      have hr2 : dropColsRow dropColumns r1 ∈ df1.map (fun r => dropColsRow dropColumns r) :=
        List.mem_map_of_mem _ hr1
      have hc2 : getCol (dropColsRow dropColumns r1) "cicid" = getCol r "cicid" := by
        rw [getCol_dropColsRow _ _ _ (by decide), hc1]
      rcases dedupAux_key_reached (fun r => getCol r "cicid") []
          (df1.map (fun r => dropColsRow dropColumns r)) _ hr2 with hseen | ⟨r3, hr3, hk3⟩
      · simp at hseen
      · refine ⟨r3, List.mem_filter.mpr ⟨hr3, ?_⟩, ?_⟩
        · simp [allNullB]
          rw [hk3, hc2]
          exact hne
        · rw [hk3, hc2]

/-- A raw row with a non-null `cicid` and null dates, fixed by cleaning. -/
def c2okRow : Row :=
  [("cicid", Cell.int 7), ("arrdate", Cell.null), ("depdate", Cell.null)]

/-- C2 witness: instantiating the amended filter theorem on a concrete
relation. -/
theorem c2_cicid_filter_witness : getCol c2okRow "cicid" ≠ Cell.null :=
  (c2_cicid_filter [c2okRow] [c2okRow] (by decide)).1 c2okRow (by decide)

/- ### Lemmas for the second-run analysis of the normalizer -/

theorem hasCol_of_mem (r : Row) (c : String) (p : String × Cell)
    (hp : p ∈ r) (hpc : p.1 = c) : hasCol r c = true := by
  induction r with
  | nil => simp at hp
  | cons x xs ih =>
    rcases List.mem_cons.mp hp with hx | hx
    · simp [hasCol, hx ▸ hpc]
    · unfold hasCol
      by_cases hxc : x.1 = c
      · simp [hxc]
      · simp [hxc]
        exact ih hx

theorem setCol_entries (r : Row) (c : String) (v : Cell) :
    ∀ p ∈ setCol r c v, p.1 = c → p.2 = v := by
  unfold setCol
  by_cases hsome : hasCol r c
  · rw [if_pos hsome]
    intro p hp hpc
    rcases List.mem_map.mp hp with ⟨q, _, hq⟩
    by_cases hqc : q.1 = c
    · rw [if_pos hqc] at hq
      rw [← hq]
    · rw [if_neg hqc] at hq
      exact absurd (hq ▸ hpc) hqc
  · rw [if_neg hsome]
    intro p hp hpc
    rcases List.mem_append.mp hp with hp | hp
    · exact absurd (hasCol_of_mem r c p hp hpc) hsome
    · simp at hp
      rw [hp]

theorem setCol_entries_ne (r : Row) (c c' : String) (v w : Cell) (hne : c' ≠ c)
    (h : ∀ p ∈ r, p.1 = c → p.2 = v) :
    ∀ p ∈ setCol r c' w, p.1 = c → p.2 = v := by
  unfold setCol
  by_cases hsome : hasCol r c'
  · rw [if_pos hsome]
    intro p hp hpc
    rcases List.mem_map.mp hp with ⟨q, hq, hqe⟩
    by_cases hqc : q.1 = c'
    · rw [if_pos hqc] at hqe
      rw [← hqe] at hpc
      exact absurd hpc hne
    · rw [if_neg hqc] at hqe
      exact h p (hqe ▸ hq) hpc
  · rw [if_neg hsome]
    intro p hp hpc
    rcases List.mem_append.mp hp with hp | hp
    · exact h p hp hpc
    · simp at hp
      rw [hp] at hpc
      exact absurd hpc hne

theorem dropColsRow_entries (cols : List String) (r : Row) (c : String) (v : Cell)
    (h : ∀ p ∈ r, p.1 = c → p.2 = v) :
    ∀ p ∈ dropColsRow cols r, p.1 = c → p.2 = v :=
  fun p hp => h p (List.mem_filter.mp hp).1

theorem hasCol_append (r s : Row) (c : String) :
    hasCol (r ++ s) c = (hasCol r c || hasCol s c) := by
  induction r with
  | nil => simp [hasCol]
  | cons p ps ih =>
    by_cases h : p.1 = c
    · simp [hasCol, h]
    · simp [hasCol, h, ih]

theorem hasCol_map_update (r : Row) (c c' : String) (v : Cell) :
    hasCol (r.map (fun p => if p.1 = c then (c, v) else p)) c' = hasCol r c' := by
  induction r with
  | nil => simp [hasCol]
  | cons p ps ih =>
    by_cases h : p.1 = c
    · by_cases h' : c = c'
      · simp [hasCol, h, h', ih]
      · have hpc : ¬(p.1 = c') := by rw [h]; exact h'
        simp [hasCol, h, h', hpc, ih]
    · simp [hasCol, h, ih]

theorem hasCol_setCol_self (r : Row) (c : String) (v : Cell) :
    hasCol (setCol r c v) c = true := by
  unfold setCol
  by_cases hsome : hasCol r c
  · rw [if_pos hsome, hasCol_map_update]
    exact hsome
  · rw [if_neg hsome, hasCol_append]
    simp [hasCol]

theorem hasCol_setCol_mono (r : Row) (c c' : String) (v : Cell)
    (h : hasCol r c' = true) : hasCol (setCol r c v) c' = true := by
  unfold setCol
  by_cases hsome : hasCol r c
  · rw [if_pos hsome, hasCol_map_update]
    exact h
  · rw [if_neg hsome, hasCol_append, h]
    rfl

theorem hasCol_dropColsRow (cols : List String) (r : Row) (c : String)
    (h : c ∉ cols) : hasCol (dropColsRow cols r) c = hasCol r c := by
  induction r with
  | nil => simp [dropColsRow, hasCol]
  | cons p ps ih =>
    unfold dropColsRow at ih ⊢
    by_cases hp : p.1 ∈ cols
    · have hne : ¬(p.1 = c) := fun hc => h (hc ▸ hp)
      simp [List.filter, hp, hasCol, hne, ih]
    · simp only [List.filter_cons, decide_eq_true_eq]
      simp [hp, hasCol, ih]

theorem hasCol_exists_entry (r : Row) (c : String) (h : hasCol r c = true) :
    ∃ p, p ∈ r ∧ p.1 = c ∧ p.2 = getCol r c := by
  induction r with
  | nil => simp [hasCol] at h
  | cons p ps ih =>
    by_cases hp : p.1 = c
    · exact ⟨p, List.mem_cons_self _ _, hp, by simp [getCol, hp]⟩
    · unfold hasCol at h
      rw [if_neg hp] at h
      rcases ih h with ⟨q, hq, hqc, hqv⟩
      refine ⟨q, List.mem_cons_of_mem _ hq, hqc, ?_⟩
      simp [getCol, hp, hqv]

theorem mapRows_eq_self (l : DF) (f : Row → Row) (h : ∀ x ∈ l, f x = x) :
    l.map f = l := by
  induction l with
  | nil => rfl
  | cons x xs ih =>
    simp only [List.map_cons]
    rw [h x (List.mem_cons_self _ _), ih (fun y hy => h y (List.mem_cons_of_mem _ hy))]

theorem mapEntries_eq_self (l : Row) (f : String × Cell → String × Cell)
    (h : ∀ x ∈ l, f x = x) : l.map f = l := by
  induction l with
  | nil => rfl
  | cons x xs ih =>
    simp only [List.map_cons]
    rw [h x (List.mem_cons_self _ _), ih (fun y hy => h y (List.mem_cons_of_mem _ hy))]

theorem setCol_eq_self_of_entries (r : Row) (c : String) (v : Cell)
    (hc : hasCol r c = true) (h : ∀ p ∈ r, p.1 = c → p.2 = v) :
    setCol r c v = r := by
  unfold setCol
  rw [if_pos hc]
  refine mapEntries_eq_self r _ ?_
  intro p hp
  by_cases hpc : p.1 = c
  · rw [if_pos hpc]
    have := h p hp hpc
    cases p
    simp_all
  · rw [if_neg hpc]

/- ### Claim C7: running the normalizer on its own output -/

/-- A raw relation whose single row has a non-null arrival date. -/
def c7df : DF :=
  [[("cicid", Cell.int 1), ("arrdate", Cell.int 1), ("depdate", Cell.null)]]

/-- The cleaned output of `c7df`: the arrival date is now an ISO string. -/
def c7out : DF :=
  [[("cicid", Cell.int 1), ("arrdate", Cell.str "1960-01-02"), ("depdate", Cell.null)]]

/-- C7 counterexample: the claim says a second run of the normalizer on its
own output yields an identical relation.  In fact the second run re-applies
the `get_date` UDF to the already-converted ISO date strings; a non-empty
string is truthy, so Python evaluates `timedelta("1960-01-02")` and raises
a `TypeError` — the second run fails instead of returning the relation. -/
theorem c7_counterexample :
    clean_immigration_data c7df = Except.ok c7out ∧
    clean_immigration_data c7out =
      Except.error "TypeError: unsupported type for timedelta days component: str" := by
  refine ⟨by decide, by decide⟩

/-- C7 (amended): a second run of the normalizer on its own output fails
with a `TypeError` as soon as some converted date is non-null; only when
every arrival and departure date of the output is null does the second run
return the relation unchanged (the column-drop, deduplication and
null-filter steps are idempotent). -/
theorem c7_second_run_fixed_point (df out : DF)
    (h : clean_immigration_data df = Except.ok out)
    (hnull : ∀ r ∈ out, getCol r "arrdate" = Cell.null ∧ getCol r "depdate" = Cell.null) :
    clean_immigration_data out = Except.ok out := by
  unfold clean_immigration_data at h
  cases hm : mapMExcept dateConvertRow df with
  | error e => rw [hm] at h; cases h
  | ok df1 =>
    rw [hm] at h
    injection h with h
    subst h
    set df2 := df1.map (fun r => dropColsRow dropColumns r) with hdf2
    set df3 := dedupByKey (fun r => getCol r "cicid") df2 with hdf3
    set out := df3.filter (fun r => !(allNullB ["cicid"] r)) with hout
    have hshape : ∀ r ∈ out, ∃ r0 a d,
        r = dropColsRow dropColumns (setCol (setCol r0 "arrdate" a) "depdate" d) := by
      intro r hr
      have hr3 : r ∈ df3 := (List.mem_filter.mp hr).1
      have hr2 : r ∈ df2 := mem_of_mem_dedupAux _ _ _ _ hr3
      rcases List.mem_map.mp hr2 with ⟨r1, hr1, he⟩
      rcases mapMExcept_ok_backward dateConvertRow df df1 hm r1 hr1 with ⟨r0, _, hf⟩
      rcases dateConvertRow_shape r0 r1 hf with ⟨a, d, hs⟩
      exact ⟨r0, a, d, by rw [← he, hs]⟩
    have hfix : ∀ r ∈ out, dateConvertRow r = .ok r := by
      intro r hr
      rcases hshape r hr with ⟨r0, a, d, hs⟩
      have hhA : hasCol r "arrdate" = true := by
        rw [hs, hasCol_dropColsRow _ _ _ (by decide)]
        exact hasCol_setCol_mono _ _ _ _ (hasCol_setCol_self r0 "arrdate" a)
      have hhD : hasCol r "depdate" = true := by
        rw [hs, hasCol_dropColsRow _ _ _ (by decide)]
        exact hasCol_setCol_self _ "depdate" d
      have hentA : ∀ p ∈ r, p.1 = "arrdate" → p.2 = a := by
        rw [hs]
        exact dropColsRow_entries _ _ _ _
          (setCol_entries_ne _ _ _ _ _ (by decide) (setCol_entries r0 "arrdate" a))
      have hentD : ∀ p ∈ r, p.1 = "depdate" → p.2 = d := by
        rw [hs]
        exact dropColsRow_entries _ _ _ _ (setCol_entries _ "depdate" d)
      have hanull : a = Cell.null := by
        rcases hasCol_exists_entry r "arrdate" hhA with ⟨p, hp, hpc, hpv⟩
        rw [← hentA p hp hpc, hpv, (hnull r hr).1]
      have hdnull : d = Cell.null := by
        rcases hasCol_exists_entry r "depdate" hhD with ⟨p, hp, hpc, hpv⟩
        rw [← hentD p hp hpc, hpv, (hnull r hr).2]
      have hsetA : setCol r "arrdate" Cell.null = r :=
        setCol_eq_self_of_entries r "arrdate" Cell.null hhA (hanull ▸ hentA)
      have hsetD : setCol r "depdate" Cell.null = r :=
        setCol_eq_self_of_entries r "depdate" Cell.null hhD (hdnull ▸ hentD)
      unfold dateConvertRow
      rw [(hnull r hr).1, (hnull r hr).2]
      simp [get_date, hsetA, hsetD]
    unfold clean_immigration_data
    rw [mapMExcept_id dateConvertRow out hfix]
    have hdropfix : out.map (fun r => dropColsRow dropColumns r) = out := by
      refine mapRows_eq_self out _ ?_
      intro r hr
      rcases hshape r hr with ⟨r0, a, d, hs⟩
      rw [hs]
      unfold dropColsRow
      rw [List.filter_filter]
      refine List.filter_congr ?_
      intro p _
      rw [Bool.and_self]
    have hpw : List.Pairwise
        (fun a b => getCol a "cicid" ≠ getCol b "cicid") out := by
      rw [hout, hdf3]
      exact List.Pairwise.filter _ (pairwise_dedupAux _ [] df2)
    have hdedupfix : dedupByKey (fun r => getCol r "cicid") out = out :=
      dedupAux_eq_self _ [] out hpw (by simp)
    have hfilterfix : out.filter (fun r => !(allNullB ["cicid"] r)) = out := by
      refine List.filter_eq_self.mpr ?_
      intro r hr
      exact (List.mem_filter.mp hr).2
    simp only [hdropfix, hdedupfix, hfilterfix]

/-- A cleaned relation with all dates null, fixed by a second run. -/
def c7nullDf : DF :=
  [[("cicid", Cell.int 2), ("arrdate", Cell.null), ("depdate", Cell.null)]]

/-- C7 witness: the fixed-point theorem instantiated on a concrete cleaned
relation with null dates. -/
theorem c7_second_run_fixed_point_witness :
    clean_immigration_data c7nullDf = Except.ok c7nullDf :=
  c7_second_run_fixed_point c7nullDf c7nullDf (by decide) (by decide)

/- ### Claims C8 and C10: the airport dimension -/

theorem mkAirportRow_continent_code (n : Int) (a : Row) :
    getCol (mkAirportRow n a) "continent_code" = getCol a "continent" := rfl

theorem mkAirportRow_continent_name (n : Int) (a : Row) :
    getCol (mkAirportRow n a) "continent_name" = continentCase (getCol a "continent") := rfl

theorem mkAirportRow_state_code (n : Int) (a : Row) :
    getCol (mkAirportRow n a) "state_code" = sqlRight (getCol a "iso_region") 2 := rfl

theorem airportRows_length (n : Int) (df : DF) :
    (airportRows n df).length = df.length := by
  induction df generalizing n with
  | nil => rfl
  | cons a as ih =>
    unfold airportRows
    simp [ih]

theorem mem_airportRows (n : Int) (df : DF) (r : Row) (h : r ∈ airportRows n df) :
    ∃ m a, a ∈ df ∧ r = mkAirportRow m a := by
  induction df generalizing n with
  | nil => simp [airportRows] at h
  | cons x xs ih =>
    unfold airportRows at h
    rcases List.mem_cons.mp h with h | h
    · exact ⟨n, x, List.mem_cons_self _ _, h⟩
    · rcases ih (n + 1) h with ⟨m, a, ha, he⟩
      exact ⟨m, a, List.mem_cons_of_mem _ ha, he⟩

/-- C8: every airport row is present in `us_airport_dim` (one output row per
input record), each of the seven continent codes is expanded to its full
continent name, and any other string code yields a null continent name. -/
theorem c8_continent_mapping :
    (∀ df, (us_airport_dim df).length = df.length) ∧
    (∀ df r, r ∈ us_airport_dim df →
      (getCol r "continent_code" = Cell.str "NA" →
        getCol r "continent_name" = Cell.str "North America") ∧
      (getCol r "continent_code" = Cell.str "AF" →
        getCol r "continent_name" = Cell.str "Africa") ∧
      (getCol r "continent_code" = Cell.str "AN" →
        getCol r "continent_name" = Cell.str "Antarctica") ∧
      (getCol r "continent_code" = Cell.str "AS" →
        getCol r "continent_name" = Cell.str "Asia") ∧
      (getCol r "continent_code" = Cell.str "EU" →
        getCol r "continent_name" = Cell.str "Europe") ∧
      (getCol r "continent_code" = Cell.str "OC" →
        getCol r "continent_name" = Cell.str "Oceania") ∧
      (getCol r "continent_code" = Cell.str "SA" →
        getCol r "continent_name" = Cell.str "South America") ∧
      (∀ s, getCol r "continent_code" = Cell.str s →
        s ∉ (["NA", "AF", "AN", "AS", "EU", "OC", "SA"] : List String) →
        getCol r "continent_name" = Cell.null)) := by
  constructor
  · intro df
    exact airportRows_length 1 df
  · intro df r hr
    rcases mem_airportRows 1 df r hr with ⟨m, a, _, he⟩
    subst he
    rw [mkAirportRow_continent_code, mkAirportRow_continent_name]
    refine ⟨?_, ?_, ?_, ?_, ?_, ?_, ?_, ?_⟩
    · intro h; rw [h]; rfl
    · intro h; rw [h]; rfl
    · intro h; rw [h]; rfl
    · intro h; rw [h]; rfl
    · intro h; rw [h]; rfl
    · intro h; rw [h]; rfl
    · intro h; rw [h]; rfl
    · intro s hs hmem
      rw [hs]
      simp at hmem
      simp [continentCase, hmem]

/-- An airport record used in the airport-dimension witnesses. -/
def apRecord : Row :=
  [("iata_code", Cell.str "JFK"), ("continent", Cell.str "NA"),
   ("iso_region", Cell.str "US-NY")]

/-- The `us_airport_dim` output row for `apRecord`. -/
def apDimRow : Row :=
  [("airport_id", Cell.int 1), ("airport_code", Cell.str "JFK"),
   ("airport_type", Cell.null), ("airport_name", Cell.null),
   ("continent_code", Cell.str "NA"), ("continent_name", Cell.str "North America"),
   ("country_code", Cell.null), ("state_code", Cell.str "NY"),
   ("municipality", Cell.null)]

/-- C8 witness: the continent-mapping theorem instantiated on a concrete
airport relation. -/
theorem c8_continent_mapping_witness :
    getCol apDimRow "continent_name" = Cell.str "North America" :=
  (c8_continent_mapping.2 [apRecord] apDimRow (by decide)).1 (by decide)

theorem zip_airportRows_state_code (df : DF) (n : Int) (p : Row × Row)
    (h : p ∈ List.zip df (airportRows n df)) :
    getCol p.2 "state_code" = sqlRight (getCol p.1 "iso_region") 2 := by
  induction df generalizing n with
  | nil => simp [airportRows] at h
  | cons a as ih =>
    unfold airportRows at h
    rw [List.zip_cons_cons] at h
    rcases List.mem_cons.mp h with h | h
    · rw [h]
      exact mkAirportRow_state_code n a
    · exact ih (n + 1) h

/-- C10: for every airport record, the `state_code` column of its
`us_airport_dim` row is the last two characters of the record's
`iso_region` field (and null when `iso_region` is null). -/
theorem c10_state_code_from_iso_region (df : DF) (p : Row × Row)
    (h : p ∈ List.zip df (us_airport_dim df)) :
    (∀ s, getCol p.1 "iso_region" = Cell.str s →
      getCol p.2 "state_code" = Cell.str (rightStr s 2)) ∧
    (getCol p.1 "iso_region" = Cell.null → getCol p.2 "state_code" = Cell.null) := by
  have he := zip_airportRows_state_code df 1 p h
  constructor
  · intro s hs
    rw [he, hs]
    rfl
  · intro hs
    rw [he, hs]
    rfl

/-- C10 witness: the state-code derivation instantiated on a concrete
airport relation (`iso_region = "US-NY"` gives state code `"NY"`). -/
theorem c10_state_code_from_iso_region_witness :
    getCol apDimRow "state_code" = Cell.str (rightStr "US-NY" 2) :=
  (c10_state_code_from_iso_region [apRecord] (apRecord, apDimRow) (by decide)).1
    "US-NY" (by decide)

/- ### Claims C4 and C5: the fact-table joins -/

/-- Join-key uniqueness of a dimension: every row's key is null or distinct
from the keys of all later rows (null keys never match a join, so they may
repeat without producing a multi-match). -/
def keyUniqueB (key : Row → Cell) : DF → Bool
  | [] => true
  | r :: rs =>
    (decide (key r = Cell.null) || rs.all (fun r' => !(decide (key r = key r')))) &&
      keyUniqueB key rs

theorem sqlEq_eq_true (a b : Cell) : sqlEq a b = true ↔ a = b ∧ a ≠ Cell.null := by
  cases a <;> cases b <;> simp [sqlEq]

theorem filter_sqlEq_length_le_one (key : Row → Cell) (v : Cell) (df : DF)
    (h : keyUniqueB key df = true) :
    (df.filter (fun r => sqlEq v (key r))).length ≤ 1 := by
  induction df with
  | nil => simp
  | cons x xs ih =>
    unfold keyUniqueB at h
    rw [Bool.and_eq_true] at h
    rcases h with ⟨hx, hrest⟩
    by_cases hpx : sqlEq v (key x) = true
    · rcases (sqlEq_eq_true v (key x)).mp hpx with ⟨hv, hvn⟩
      have hxn : key x ≠ Cell.null := hv ▸ hvn
      have hall : ∀ r' ∈ xs, key x ≠ key r' := by
        have hx' : key x = Cell.null ∨ ∀ r' ∈ xs, ¬(key x = key r') := by
          simpa using hx
        rcases hx' with hx' | hx'
        · exact absurd hx' hxn
        · exact hx'
      have hnil : xs.filter (fun r => sqlEq v (key r)) = [] := by
        refine List.filter_eq_nil_iff.mpr ?_
        intro r' hr'
        intro hc
        rcases (sqlEq_eq_true v (key r')).mp hc with ⟨hv', _⟩
        exact hall r' hr' (hv ▸ hv')
      simp [List.filter_cons, hpx, hnil]
    · simp only [List.filter_cons, hpx]
      simpa using ih hrest

theorem matchRows_length_one (df : DF) (p : Row → Bool)
    (h : (df.filter p).length ≤ 1) : (matchRows df p).length = 1 := by
  unfold matchRows
  cases hf : df.filter p with
  | nil => rfl
  | cons x xs =>
    cases xs with
    | nil => rfl
    | cons y ys =>
      rw [hf] at h
      simp at h

theorem factRowsForRec_length (i : Row) (cd ad dd : DF)
    (h1 : keyUniqueB (fun r => sqlLower (getCol r "country_name")) cd = true)
    (h2 : keyUniqueB (fun r => getCol r "airport_code") ad = true)
    (h3 : keyUniqueB (fun r => getCol r "state_code") dd = true) :
    (factRowsForRec i cd ad dd).length = 1 := by
  obtain ⟨ob, hob⟩ := List.length_eq_one.mp
    (matchRows_length_one cd (fun b => birthRowMatch i b)
      (filter_sqlEq_length_le_one _ _ cd h1))
  have hores : matchRows cd (fun b => resRowMatch i b) = [ob] := hob
  obtain ⟨op, hop⟩ := List.length_eq_one.mp
    (matchRows_length_one ad (fun p => portRowMatch i p)
      (filter_sqlEq_length_le_one _ _ ad h2))
  obtain ⟨od, hod⟩ := List.length_eq_one.mp
    (matchRows_length_one dd (fun d => addrRowMatch i d)
      (filter_sqlEq_length_le_one _ _ dd h3))
  unfold factRowsForRec
  rw [hob, hores, hop, hod]
  simp

theorem immigration_fact_length (imm cd ad dd : DF)
    (h1 : keyUniqueB (fun r => sqlLower (getCol r "country_name")) cd = true)
    (h2 : keyUniqueB (fun r => getCol r "airport_code") ad = true)
    (h3 : keyUniqueB (fun r => getCol r "state_code") dd = true) :
    (immigration_fact imm cd ad dd).length = imm.length := by
  induction imm with
  | nil => rfl
  | cons i rest ih =>
    unfold immigration_fact at ih ⊢
    rw [List.flatMap_cons, List.length_append, ih,
      factRowsForRec_length i cd ad dd h1 h2 h3]
    simp [Nat.add_comm]

theorem recIdFrom_length (n : Int) (df : DF) :
    (recIdFrom n df).length = df.length := by
  induction df generalizing n with
  | nil => rfl
  | cons r rs ih =>
    unfold recIdFrom
    simp [ih]

/-- C4: with unique join keys in the dimensions (lower-cased country name,
airport code, state code), the fact table has exactly one row per enriched
immigration row — the left joins neither drop rows on lookup misses nor
duplicate rows. -/
theorem c4_fact_row_count (imm cd ad dd : DF)
    (h1 : keyUniqueB (fun r => sqlLower (getCol r "country_name")) cd = true)
    (h2 : keyUniqueB (fun r => getCol r "airport_code") ad = true)
    (h3 : keyUniqueB (fun r => getCol r "state_code") dd = true) :
    (immigration_fact_table imm cd ad dd).length = imm.length := by
  unfold immigration_fact_table
  rw [recIdFrom_length, immigration_fact_length imm cd ad dd h1 h2 h3]

/-- Enriched immigration rows for the fact-table examples: the first row has
a mixed-case citizenship value, a lower-case port, and a lower-case state;
the second row matches everything exactly. -/
def factImm : DF :=
  [[("i94cit_value", Cell.str "Germany"), ("i94res_value", Cell.str "FRANCE"),
    ("i94port", Cell.str "jfk"), ("i94addr", Cell.str "ny")],
   [("i94cit_value", Cell.str "GERMANY"), ("i94port", Cell.str "JFK"),
    ("i94addr", Cell.str "NY")]]

/-- Country dimension for the fact-table examples. -/
def factCd : DF :=
  [[("country_id", Cell.int 1), ("country_name", Cell.str "GERMANY")],
   [("country_id", Cell.int 2), ("country_name", Cell.str "FRANCE")]]

/-- Airport dimension for the fact-table examples. -/
def factAd : DF :=
  [[("airport_id", Cell.int 1), ("airport_code", Cell.str "JFK")]]

/-- Demographics dimension for the fact-table examples. -/
def factDd : DF :=
  [[("state_id", Cell.int 1), ("state_code", Cell.str "NY")]]

/-- C4 witness: the row-count theorem on concrete tables (the first row's
airport and state lookups miss, yet both rows survive exactly once). -/
theorem c4_fact_row_count_witness :
    (immigration_fact_table factImm factCd factAd factDd).length = factImm.length :=
  c4_fact_row_count factImm factCd factAd factDd (by decide) (by decide) (by decide)

/-- C5: both `country_dim` joins compare the same citizenship-derived column
`i94cit_value` case-insensitively, so (with unique country keys) every fact
row has `birth_country_id = res_country_id`; concretely, `"Germany"` matches
the dimension row `"GERMANY"` for both country ids (and does not take the
residence value `"FRANCE"` for the res join), while the airport and state
joins are case-sensitive: `"jfk"`/`"ny"` miss `"JFK"`/`"NY"` (null ids) and
exact-case values hit. -/
theorem c5_country_join_column_and_case :
    (∀ imm cd ad dd, keyUniqueB (fun r => sqlLower (getCol r "country_name")) cd = true →
      ∀ r ∈ immigration_fact imm cd ad dd,
        getCol r "birth_country_id" = getCol r "res_country_id") ∧
    ((immigration_fact factImm factCd factAd factDd).map (fun r =>
      [getCol r "birth_country_id", getCol r "res_country_id",
       getCol r "airport_id", getCol r "state_id"]) =
      [[Cell.int 1, Cell.int 1, Cell.null, Cell.null],
       [Cell.int 1, Cell.int 1, Cell.int 1, Cell.int 1]]) := by
  constructor
  · intro imm cd ad dd h1 r hr
    rcases List.mem_flatMap.mp hr with ⟨i, _, hri⟩
    obtain ⟨ob, hob⟩ := List.length_eq_one.mp
      (matchRows_length_one cd (fun b => birthRowMatch i b)
        (filter_sqlEq_length_le_one _ _ cd h1))
    have hores : matchRows cd (fun b => resRowMatch i b) = [ob] := hob
    unfold factRowsForRec at hri
    rw [hob, hores] at hri
    simp only [List.flatMap_cons, List.flatMap_nil, List.append_nil] at hri
    rcases List.mem_flatMap.mp hri with ⟨pr, _, hr2⟩
    rcases List.mem_map.mp hr2 with ⟨dr, _, he⟩
    rw [← he]
    rfl
  · decide

/-- The first fact row produced for `factImm`. -/
def c5factRow : Row :=
  mkFactRow
    [("i94cit_value", Cell.str "Germany"), ("i94res_value", Cell.str "FRANCE"),
     ("i94port", Cell.str "jfk"), ("i94addr", Cell.str "ny")]
    (some [("country_id", Cell.int 1), ("country_name", Cell.str "GERMANY")])
    (some [("country_id", Cell.int 1), ("country_name", Cell.str "GERMANY")])
    none none

/-- C5 witness: the birth/res equality instantiated on the concrete fact
row built from the mixed-case immigration record. -/
theorem c5_country_join_column_and_case_witness :
    getCol c5factRow "birth_country_id" = getCol c5factRow "res_country_id" :=
  c5_country_join_column_and_case.1 factImm factCd factAd factDd (by decide)
    c5factRow (by decide)

/- ### Claim C9: missing markers are fatal, malformed lines are skipped -/

/-- Success test for a fallible pipeline stage. -/
def isOkE {α : Type} (e : Except String α) : Bool :=
  match e with
  | .ok _ => true
  | .error _ => false

theorem code_mapper_error_of_missing (content idx : String)
    (h : hasSub content idx = false) :
    code_mapper content idx = .error "ValueError: substring not found" := by
  unfold code_mapper
  unfold hasSub at h
  cases hf : firstOccurrenceSuffix content idx with
  | none => rfl
  | some s1 =>
    rw [hf] at h
    simp at h

theorem code_mapper_ok_of_found (content idx s1 : String)
    (h1 : firstOccurrenceSuffix content idx = some s1)
    (h2 : hasSub s1 ";" = true) :
    isOkE (code_mapper content idx) = true := by
  unfold code_mapper
  rw [h1]
  show isOkE (code_mapper_block s1) = true
  unfold hasSub at h2
  rw [firstOccurrenceSuffix, if_neg (by decide : ¬((";" : String) = ""))] at h2
  have he : (";" : String).toList = [';'] := rfl
  rw [he] at h2
  unfold code_mapper_block
  cases hf : findSplitCh [';'] s1.toList with
  | none =>
    rw [hf] at h2
    simp at h2
  | some p =>
    obtain ⟨block, rest⟩ := p
    rfl

theorem fetch_error_of_missing_marker (labelsContent : String) (df : DF) (m : String)
    (hm : m ∈ (["i94cntyl", "i94model", "i94addrl"] : List String))
    (h : hasSub (stripTabs labelsContent) m = false) :
    isOkE (fetch_sas_key_values labelsContent df) = false := by
  unfold fetch_sas_key_values
  simp only [List.mem_cons, List.mem_singleton, List.not_mem_nil, or_false] at hm
  rcases hm with hm | hm | hm
  · subst hm
    rw [code_mapper_error_of_missing _ _ h]
    rfl
  · subst hm
    cases h1 : code_mapper (stripTabs labelsContent) "i94cntyl" with
    | error e => rfl
    | ok m1 =>
      rw [code_mapper_error_of_missing _ _ h]
      rfl
  · subst hm
    cases h1 : code_mapper (stripTabs labelsContent) "i94cntyl" with
    | error e => rfl
    | ok m1 =>
      cases h2 : code_mapper (stripTabs labelsContent) "i94model" with
      | error e => rfl
      | ok m2 =>
        rw [code_mapper_error_of_missing _ _ h]
        rfl

/-- C9: decoding a domain whose marker does not occur in the (tab-stripped)
label text makes the whole run fail before any output relation is produced
(`run_pipeline` returns an error, so no relation list exists), while a
marker that is found and followed by a terminating semicolon always decodes
successfully — malformed lines inside the block are silently skipped, as on
the block `"m\na=b=c\n'1'='Foo'\n;"` whose two-equals line is dropped. -/
theorem c9_missing_marker_fatal :
    (∀ labelsContent imm temp demo ap m,
      m ∈ (["i94cntyl", "i94model", "i94addrl"] : List String) →
      hasSub (stripTabs labelsContent) m = false →
      isOkE (run_pipeline labelsContent imm temp demo ap) = false) ∧
    (∀ content idx s1, firstOccurrenceSuffix content idx = some s1 →
      hasSub s1 ";" = true → isOkE (code_mapper content idx) = true) ∧
    (code_mapper "m\na=b=c\n'1'='Foo'\n;" "m" = Except.ok [("1", "Foo")]) := by
  refine ⟨?_, ?_, by decide⟩
  · intro labelsContent imm temp demo ap m hm h
    unfold run_pipeline
    have := fetch_error_of_missing_marker labelsContent imm m hm h
    cases hf : fetch_sas_key_values labelsContent imm with
    | error e => rfl
    | ok imm1 =>
      rw [hf] at this
      simp [isOkE] at this
  · exact code_mapper_ok_of_found

/-- C9 witness: a label text without the `i94cntyl` marker aborts the run;
the decoder succeeds on a found marker with a malformed line present. -/
theorem c9_missing_marker_fatal_witness :
    isOkE (run_pipeline "no markers here" [] [] [] []) = false ∧
    isOkE (code_mapper "m\na=b=c\n'1'='Foo'\n;" "m") = true :=
  ⟨c9_missing_marker_fatal.1 "no markers here" [] [] [] [] "i94cntyl"
      (by decide) (by decide),
   c9_missing_marker_fatal.2.1 "m\na=b=c\n'1'='Foo'\n;" "m"
      ("m\na=b=c\n'1'='Foo'\n;") (by decide) (by decide)⟩

